import Mathlib

/-!
Verification development for the FastAPIChatWoot message-orchestration engine.

The Python sources (`Agente.py`, `Agente2.py`, `ChatwootClient.py`) are shallowly
embedded below: text helpers operate on `List Char` / `String`, the regular
expressions of `MessageOrchestratorAgent` are compiled into a small executable
matcher, the per-message dispatch of `handle_incoming` is modelled as a list of
side-effect calls interpreted against a failure oracle, and the caches are
association lists that preserve Python dict insertion order.

Environment-dependent configuration is embedded at its documented default value
(label names `humano` / `ia_orquestrador` / `ia_mec` / `ia_falha`, confidence
threshold 0.7, LLM classifier disabled), exactly as `os.getenv` defaults them.
-/

/-! ## Python text primitives -/

/-- Whitespace test matching the characters of Python's `str.strip` default set
and the ASCII part of the regex class `\s`: space, tab, LF, CR, VT, FF. -/
def isSpacePy (c : Char) : Bool :=
  c == ' ' || c == '\t' || c == '\n' || c == '\r' || c == '\u000b' || c == '\u000c'

/-- Association-list lookup: first pair whose key equals `k` (Python `dict.get`). -/
def assocGet [DecidableEq α] : List (α × β) → α → Option β
  | [], _ => none
  | (k', v) :: r, k => if k' = k then some v else assocGet r k

/-- Association-list update: Python `d[k] = v` keeps the insertion position of an
existing key and appends a fresh key at the end. -/
def assocUpdate [DecidableEq α] : List (α × β) → α → β → List (α × β)
  | [], k, v => [(k, v)]
  | (k', v') :: r, k, v => if k' = k then (k, v) :: r else (k', v') :: assocUpdate r k v

/-- Lowercasing table for the characters occurring in this repository:
ASCII letters plus the precomposed accented vowels / cedilla used in the
Portuguese rule tables (Python `str.lower`). -/
def lowerTable : List (Char × Char) :=
  [('A', 'a'), ('B', 'b'), ('C', 'c'), ('D', 'd'), ('E', 'e'), ('F', 'f'),
   ('G', 'g'), ('H', 'h'), ('I', 'i'), ('J', 'j'), ('K', 'k'), ('L', 'l'),
   ('M', 'm'), ('N', 'n'), ('O', 'o'), ('P', 'p'), ('Q', 'q'), ('R', 'r'),
   ('S', 's'), ('T', 't'), ('U', 'u'), ('V', 'v'), ('W', 'w'), ('X', 'x'),
   ('Y', 'y'), ('Z', 'z'),
   ('Á', 'á'), ('À', 'à'), ('Â', 'â'), ('Ã', 'ã'), ('É', 'é'), ('Ê', 'ê'),
   ('Í', 'í'), ('Ó', 'ó'), ('Ô', 'ô'), ('Õ', 'õ'), ('Ú', 'ú'), ('Ü', 'ü'),
   ('Ç', 'ç')]

/-- Python `str.lower` restricted to the repository's character set. -/
def toLowerPy (c : Char) : Char :=
  match assocGet lowerTable c with
  | some d => d
  | none => c

/-- Diacritic removal table: NFD decomposition followed by dropping combining
marks (`unicodedata.category(c) != "Mn"`) maps each precomposed accented letter
to its base letter. -/
def accentTable : List (Char × Char) :=
  [('á', 'a'), ('à', 'a'), ('â', 'a'), ('ã', 'a'), ('é', 'e'), ('ê', 'e'),
   ('í', 'i'), ('ó', 'o'), ('ô', 'o'), ('õ', 'o'), ('ú', 'u'), ('ü', 'u'),
   ('ç', 'c'),
   ('Á', 'A'), ('À', 'A'), ('Â', 'A'), ('Ã', 'A'), ('É', 'E'), ('Ê', 'E'),
   ('Í', 'I'), ('Ó', 'O'), ('Ô', 'O'), ('Õ', 'O'), ('Ú', 'U'), ('Ü', 'U'),
   ('Ç', 'C')]

/-- Per-character model of `unicodedata.normalize("NFD", ·)` followed by
removal of `Mn` marks, for precomposed input characters. -/
def stripAccentPy (c : Char) : Char :=
  match assocGet accentTable c with
  | some d => d
  | none => c

/-- Python `str.strip()`: drop leading and trailing whitespace. -/
def pyStripList (l : List Char) : List Char :=
  ((l.dropWhile isSpacePy).reverse.dropWhile isSpacePy).reverse

/-- String wrapper for `pyStripList`. -/
def pyStrip (s : String) : String :=
  ⟨pyStripList s.data⟩

/-- Model of `re.sub(r"\s+", " ", ·)`: every maximal run of whitespace becomes
one single space. -/
def collapseWs : List Char → List Char
  | [] => []
  | [c] => [if isSpacePy c then ' ' else c]
  | c :: d :: rest =>
    if isSpacePy c && isSpacePy d then collapseWs (d :: rest)
    else (if isSpacePy c then ' ' else c) :: collapseWs (d :: rest)

/-- List form of `normalize_text` (`Agente.py`): `re.sub(r"\s+", " ",
text.strip().lower())`. -/
def normalizeTextList (l : List Char) : List Char :=
  collapseWs ((pyStripList l).map toLowerPy)

/-- Embedding of `normalize_text` from `Agente.py`. -/
def normalizeText (s : String) : String :=
  ⟨normalizeTextList s.data⟩

/-- List form of `fold_text` (`Agente.py`): lowercase plus diacritic removal. -/
def foldTextList (l : List Char) : List Char :=
  (normalizeTextList l).map stripAccentPy

/-- Embedding of `fold_text` from `Agente.py`. -/
def foldText (s : String) : String :=
  ⟨foldTextList s.data⟩

/-- Python substring containment `needle in haystack`. -/
def containsSub (needle : List Char) : List Char → Bool
  | [] => needle.isEmpty
  | c :: rest => needle.isPrefixOf (c :: rest) || containsSub needle rest

/-- Python `str.isdigit` for ASCII content: nonempty and all characters digits. -/
def pyIsdigit (s : String) : Bool :=
  !s.data.isEmpty && s.data.all Char.isDigit

/-- Python `int(·)` on a digit string. -/
def natOfDigits (l : List Char) : Nat :=
  l.foldl (fun n c => n * 10 + (c.toNat - '0'.toNat)) 0

/-! ## Minimal regular-expression matcher

`MessageOrchestratorAgent` uses `re.search` over a fixed list of patterns built
from literals, word boundaries, character classes, `*` over a class, optional
groups and alternation.  The matcher below covers exactly those constructs; a
continuation-passing search tries every split point, so it decides match
existence just as Python's backtracking engine does. -/

/-- Python's `\w` (Unicode word character) over the repository's character set:
ASCII alphanumerics, underscore and accented letters. -/
def isWordPy (c : Char) : Bool :=
  c.isAlphanum || c == '_' || (accentTable.map Prod.fst).contains c

/-- Syntax of the regular expressions appearing in `Agente.py`. -/
inductive Regex where
  | eps
  | lit (cs : List Char)
  | cls (p : Char → Bool)
  | clsStar (p : Char → Bool)
  | seq (a b : Regex)
  | alt (a b : Regex)
  | opt (a : Regex)
  | wb

/-- Continuations receive the previously consumed character (for `\b`) and the
remaining input. -/
abbrev MatchCont := Option Char → List Char → Bool

/-- Word-boundary test (`\b`): exactly one side of the current position is a
word character. -/
def isWordBoundary (prev : Option Char) (next : List Char) : Bool :=
  let a := match prev with | some c => isWordPy c | none => false
  let b := match next with | c :: _ => isWordPy c | [] => false
  a != b

/-- Match a literal character sequence, then continue. -/
def litMatch : List Char → MatchCont → MatchCont
  | [], k => k
  | c :: cs, k => fun _ s =>
    match s with
    | [] => false
    | d :: r => c == d && litMatch cs k (some d) r

/-- Match any number of class characters (with full backtracking), then
continue. -/
def starLoop (p : Char → Bool) (k : MatchCont) : MatchCont
  | prev, [] => k prev []
  | prev, c :: rest => k prev (c :: rest) || (p c && starLoop p k (some c) rest)

/-- Continuation-passing matcher: `matchR r k prev s` holds when a prefix of
`s` matches `r` and `k` accepts the rest. -/
def matchR : Regex → MatchCont → MatchCont
  | .eps, k => k
  | .lit cs, k => litMatch cs k
  | .cls p, k => fun _ s =>
    match s with
    | [] => false
    | c :: r => p c && k (some c) r
  | .clsStar p, k => starLoop p k
  | .seq a b, k => matchR a (matchR b k)
  | .alt a b, k => fun prev s => matchR a k prev s || matchR b k prev s
  | .opt a, k => fun prev s => k prev s || matchR a k prev s
  | .wb, k => fun prev s => isWordBoundary prev s && k prev s

/-- Try to match starting at every position (Python `re.search`). -/
def searchAux (r : Regex) : Option Char → List Char → Bool
  | prev, [] => matchR r (fun _ _ => true) prev []
  | prev, c :: rest =>
    matchR r (fun _ _ => true) prev (c :: rest) || searchAux r (some c) rest

/-- Whether `re.search(r, s)` finds a match. -/
def reSearch (r : Regex) (s : String) : Bool :=
  searchAux r none s.data

/-- Literal regex from a string. -/
def rstr (s : String) : Regex :=
  .lit s.data

/-- Concatenation of a pattern list. -/
def rcat (rs : List Regex) : Regex :=
  rs.foldr Regex.seq .eps

/-- Never-matching regex, base case for alternation lists. -/
def rfail : Regex :=
  .cls (fun _ => false)

/-- Alternation over a list of literal strings, e.g. `(suporte|financeiro|…)`. -/
def ralts (ss : List String) : Regex :=
  ss.foldr (fun s r => Regex.alt (rstr s) r) rfail

/-- Class `\s*`. -/
def spaceStar : Regex :=
  .clsStar isSpacePy

/-- Class `.*` (Python `.` excludes the newline). -/
def dotStar : Regex :=
  .clsStar (fun c => c != '\n')

/-! ## Rule tables of `MessageOrchestratorAgent` -/

/-- Compilation of `self._human_patterns` (`Agente.py`), pattern by pattern. -/
def humanPatterns : List Regex :=
  [ rcat [.wb, rstr "humano", .wb],
    rcat [.wb, rstr "atendente", .wb],
    rcat [.wb, rstr "especialista", .wb],
    rcat [.wb, rstr "financeir", .clsStar isWordPy, .wb],
    rcat [.wb, rstr "suporte", .wb],
    rcat [.wb, rstr "support", .wb],
    rcat [rstr "falar com ", .opt (rstr "uma "), rstr "pessoa"],
    rcat [rstr "quero falar com ", .opt (ralts ["o", "a", "um", "uma"]), spaceStar,
          ralts ["suporte", "financeiro", "atendente", "especialista", "equipe", "time", "humano"]],
    rcat [rstr "falar com ", .opt (ralts ["o", "a", "um", "uma"]), spaceStar,
          ralts ["suporte", "financeiro", "atendente", "especialista", "equipe", "time"]],
    rstr "suporte humano",
    rcat [rstr "quero falar com ", dotStar, rstr "humano"],
    rcat [rstr "encaminhar para ", dotStar, rstr "humano"],
    rcat [rstr "encaminh", ralts ["a", "e", "ar"], dotStar,
          ralts ["suporte", "financeiro", "time", "equipe", "atendente", "especialista", "humano"]],
    rcat [rstr "me encaminh", ralts ["a", "e"], dotStar,
          ralts ["suporte", "financeiro", "time", "equipe", "humano"]],
    rcat [rstr "passar para ", .opt (ralts ["o", "a"]), spaceStar,
          ralts ["suporte", "financeiro", "time", "equipe", "humano"]] ]

/-- Compilation of `self._ai_patterns` (`Agente.py`). -/
def aiPatterns : List Regex :=
  [ rcat [.wb, rstr "ia", .wb],
    rcat [rstr "intelig", .cls (fun c => c == 'e' || c == 'ê'), rstr "ncia artificial"],
    rstr "quero ajuda da ia",
    rstr "voltar para ia",
    rstr "pode ser pela ia" ]

/-- Member strings of `self._human_action_keywords` (a Python set; the source
lists `transferir` twice, sets deduplicate). -/
def humanActionKeywords : List String :=
  ["falar", "encaminhar", "passar", "transferir", "atender",
   "talk", "speak", "transfer", "escalate", "hablar", "escalar"]

/-- Member strings of `self._human_target_keywords`. -/
def humanTargetKeywords : List String :=
  ["humano", "pessoa", "atendente", "especialista", "equipe", "time", "suporte", "financeir",
   "human", "person", "agent", "team", "support", "persona", "agente", "equipo", "soporte"]

/-- Member strings of `self._mec_keywords`. -/
def mecKeywords : List String :=
  ["mec", "regimento", "resolução", "resolucao", "tcc", "acc", "ufpa", "fasi",
   "documento", "norma", "regra", "artigo", "credito", "crédito",
   "carga horaria", "carga horária"]

/-- Member strings of `self._smalltalk`. -/
def smalltalkSet : List String :=
  ["oi", "ola", "olá", "bom dia", "boa tarde", "boa noite", "tudo bem",
   "obrigado", "obrigada", "valeu", "ok"]

/-- Embedding of `_requested_human` (`Agente.py`): any human pattern matches,
or the folded text contains both an action keyword and a target keyword. -/
def requestedHuman (text : String) : Bool :=
  humanPatterns.any (fun r => reSearch r text) ||
    (humanActionKeywords.any (fun kw => containsSub kw.data (foldText text).data) &&
      humanTargetKeywords.any (fun kw => containsSub kw.data (foldText text).data))

/-- Embedding of `_requested_ai` (`Agente.py`). -/
def requestedAi (text : String) : Bool :=
  aiPatterns.any (fun r => reSearch r text)

/-- Embedding of `_is_mec_topic` (`Agente.py`): keyword substring test on the
normalized (not folded) text. -/
def isMecTopic (text : String) : Bool :=
  mecKeywords.any (fun kw => containsSub kw.data text.data)

/-- Embedding of `_is_smalltalk` (`Agente.py`): exact membership of the
normalized text. -/
def isSmalltalk (text : String) : Bool :=
  smalltalkSet.contains text

/-! ## Intent classification -/

/-- Route literal of `IntentDecision.route` (`Literal["mec", "direct", "human"]`). -/
inductive Route where
  | mec
  | direct
  | human
  deriving DecidableEq, Repr

/-- Route value as the Python string literal. -/
def Route.toStr : Route → String
  | .mec => "mec"
  | .direct => "direct"
  | .human => "human"

/-- Embedding of the `IntentDecision` dataclass (`Agente.py`). -/
structure IntentDecision where
  route : Route
  reason : String
  requestedHuman : Bool := false
  requestedAi : Bool := false
  requestedTeam : Option String := none
  deriving DecidableEq, Repr

/-- Default of the env var `CHATWOOT_LABEL_HUMANO`. -/
def CHATWOOT_LABEL_HUMANO : String := "humano"

/-- Default of the env var `CHATWOOT_LABEL_IA_ORQUESTRADOR`. -/
def CHATWOOT_LABEL_IA_ORQUESTRADOR : String := "ia_orquestrador"

/-- Default of the env var `CHATWOOT_LABEL_IA_MEC`. -/
def CHATWOOT_LABEL_IA_MEC : String := "ia_mec"

/-- Default of the env var `CHATWOOT_LABEL_IA_FALHA`. -/
def CHATWOOT_LABEL_IA_FALHA : String := "ia_falha"

/-- Embedding of `self._managed_labels` (`Agente.py`, constructor). -/
def managedLabels : Finset String :=
  {CHATWOOT_LABEL_IA_ORQUESTRADOR, CHATWOOT_LABEL_IA_MEC,
   CHATWOOT_LABEL_HUMANO, CHATWOOT_LABEL_IA_FALHA}

/-- Default of the env var `ORCHESTRATOR_CONFIDENCE_THRESHOLD` (0.7). -/
def ORCHESTRATOR_CONFIDENCE_THRESHOLD : ℚ := 7 / 10

/-- Body of `classify_intent` after the first line `text =
normalize_text(message)`.  The LLM fallback (`_classify_with_llm`) is embedded
at its default configuration `ORCHESTRATOR_USE_LLM_CLASSIFIER=false`, where
`self._classifier_agent` is `None` and the call returns `None`, so the ladder
falls through to the smalltalk test. -/
def classifyIntentText (text : String) (currentLabels : Finset String) : IntentDecision :=
  let rh := requestedHuman text
  let ra := requestedAi text
  if rh then
    ⟨.human, "explicit_human_request", true, ra, none⟩
  else if CHATWOOT_LABEL_HUMANO ∈ currentLabels ∧ CHATWOOT_LABEL_IA_FALHA ∈ currentLabels ∧ ra = false then
    ⟨.human, "conversation_already_human", false, false, none⟩
  else if ra then
    ⟨.mec, "explicit_ai_request", false, true, none⟩
  else if isSmalltalk text then
    ⟨.direct, "smalltalk", false, false, none⟩
  else if isMecTopic text then
    ⟨.mec, "mec_domain_keyword", false, false, none⟩
  else
    ⟨.mec, "default_mec_route", false, false, none⟩

/-- Embedding of `MessageOrchestratorAgent.classify_intent` (`Agente.py`). -/
def classifyIntent (message : String) (currentLabels : Finset String) : IntentDecision :=
  classifyIntentText (normalizeText message) currentLabels

/-- Embedding of `_compose_state_labels` as a set: copy the current labels,
remove all managed labels, add the target labels. -/
def composeStateLabels (currentLabels targetLabels : Finset String) : Finset String :=
  (currentLabels \ managedLabels) ∪ targetLabels

/-- The list actually returned by `_compose_state_labels`: `sorted(labels)`
(Python string order is lexicographic by code point, as here). -/
def composeStateLabelsList (currentLabels targetLabels : Finset String) : List String :=
  (composeStateLabels currentLabels targetLabels).sort (· ≤ ·)

/-- Embedding of the static `_direct_answer` (`Agente.py`). -/
def directAnswer (message : String) : String :=
  let text := normalizeText message
  if ["oi", "ola", "olá", "bom dia", "boa tarde", "boa noite"].contains text then
    "Olá! Posso ajudar com dúvidas acadêmicas e regulatórias. Qual sua pergunta?"
  else
    "Entendi. Posso te ajudar com dúvidas sobre os documentos e regras acadêmicas."

/-! ## The dispatch of `handle_incoming`

Each Chatwoot API call that `handle_incoming` performs is recorded as a
`CwCall`.  A call wrapped in `try/except` in the source is a *protected* step:
its failure is logged and execution continues.  An unwrapped call aborts the
dispatch when it raises (the exception is handled one layer up, in
`process_and_reply`).  A failure oracle plays the role of the network. -/

/-- Custom attributes passed to `update_conversation_meta`: the shared
`custom_attrs` dict (route, reason, timestamp, first-interaction flag) merged
with the per-route `handled_by` and `orchestrator_confidence` entries. -/
structure CustomAttrs where
  route : String
  reason : String
  ts : Nat
  firstInteraction : Bool
  handledBy : String
  confidence : ℚ
  deriving DecidableEq, Repr

/-- One Chatwoot client call issued by `handle_incoming`. -/
inductive CwCall where
  | sendMessage (content : String)
  | setLabels (labels : List String)
  | updateMeta (attrs : CustomAttrs) (teamId : Option String) (clearAssignment : Bool)
  | assignTeam (teamId : String)
  | setOpen
  deriving DecidableEq, Repr

/-- Result of one dispatch: the calls issued in order, and whether an
unhandled exception escaped `handle_incoming`. -/
structure Dispatch where
  issued : List CwCall
  aborted : Bool
  deriving DecidableEq, Repr

/-- Interpret a step list against a failure oracle.  A step is `(call,
protected)`;  a failing protected call is logged and skipped, a failing
unprotected call ends the dispatch with `aborted = true`. -/
def runSteps (fails : CwCall → Bool) : List (CwCall × Bool) → Dispatch
  | [] => ⟨[], false⟩
  | (c, prot) :: rest =>
    if fails c && !prot then ⟨[c], true⟩
    else
      let d := runSteps fails rest
      ⟨c :: d.issued, d.aborted⟩

/-- Default of the env var `CHATWOOT_HUMAN_TEAM_ID` (empty, hence falsy). -/
def CHATWOOT_HUMAN_TEAM_ID : String := ""

/-- Confirmation message sent on an explicit human request. -/
def humanConfirmMessage : String :=
  "Entendido. Vou encaminhar seu atendimento para o time humano."

/-- Apology sent when the specialist's confidence is below the threshold. -/
def lowConfidenceMessage : String :=
  "Não encontrei segurança suficiente para responder com precisão. Vou encaminhar para um especialista humano."

/-- Steps of the `human` route: every call is wrapped in its own
`try/except`, hence protected. -/
def humanRouteSteps (decision : IntentDecision) (labelSet : Finset String)
    (attrs : String → ℚ → CustomAttrs) (resolved : Option String) : List (CwCall × Bool) :=
  (if decision.reason = "explicit_human_request" then
    [(CwCall.sendMessage humanConfirmMessage, true)]
  else []) ++
  [(CwCall.setLabels (composeStateLabelsList labelSet {CHATWOOT_LABEL_HUMANO}), true),
   (CwCall.updateMeta (attrs "human_team" 0) none false, true)] ++
  (match resolved with
   | some teamId => [(CwCall.assignTeam teamId, true)]
   | none => []) ++
  [(CwCall.setOpen, true)]

/-- Steps of the `direct` route: no `try/except` in the source, all
unprotected. -/
def directRouteSteps (content : String) (labelSet : Finset String)
    (attrs : String → ℚ → CustomAttrs) : List (CwCall × Bool) :=
  [(CwCall.sendMessage (directAnswer content), false),
   (CwCall.setLabels (composeStateLabelsList labelSet {CHATWOOT_LABEL_IA_ORQUESTRADOR}), false),
   (CwCall.updateMeta (attrs "agent_1_orchestrator" (95 / 100)) none true, false),
   (CwCall.setOpen, false)]

/-- Steps of the `mec` route, branching on the specialist confidence against
the threshold: no `try/except` in the source, all unprotected. -/
def mecRouteSteps (specialist : String × ℚ) (labelSet : Finset String)
    (attrs : String → ℚ → CustomAttrs) (resolved : Option String) : List (CwCall × Bool) :=
  if ORCHESTRATOR_CONFIDENCE_THRESHOLD ≤ specialist.2 then
    [(CwCall.sendMessage specialist.1, false),
     (CwCall.setLabels (composeStateLabelsList labelSet {CHATWOOT_LABEL_IA_MEC}), false),
     (CwCall.updateMeta (attrs "agent_2_mec" specialist.2) none true, false),
     (CwCall.setOpen, false)]
  else
    [(CwCall.sendMessage lowConfidenceMessage, false),
     (CwCall.setLabels (composeStateLabelsList labelSet {CHATWOOT_LABEL_HUMANO, CHATWOOT_LABEL_IA_FALHA}), false),
     (CwCall.updateMeta (attrs "human_team_after_low_confidence" specialist.2) resolved false, false),
     (CwCall.setOpen, false)]

/-- Step list of one `handle_incoming` dispatch: classify, then branch on the
route. -/
def dispatchSteps (specialist : String × ℚ) (resolveApi : Option String)
    (content : String) (labelSet : Finset String) (forceIaLabel : Bool) (now : Nat) :
    List (CwCall × Bool) :=
  let decision := classifyIntent content labelSet
  let attrs : String → ℚ → CustomAttrs := fun handledBy conf =>
    ⟨decision.route.toStr, decision.reason, now, forceIaLabel, handledBy, conf⟩
  let resolved : Option String :=
    match resolveApi with
    | some t => some t
    | none => if CHATWOOT_HUMAN_TEAM_ID = "" then none else some CHATWOOT_HUMAN_TEAM_ID
  match decision.route with
  | .human => humanRouteSteps decision labelSet attrs resolved
  | .direct => directRouteSteps content labelSet attrs
  | .mec => mecRouteSteps specialist labelSet attrs resolved

/-- Embedding of `MessageOrchestratorAgent.handle_incoming` (`Agente.py`):
`specialist` is the `(answer, confidence)` pair the MEC specialist would
return, `resolveApi` the value returned by `chatwoot.resolve_team_id`, and
`fails` decides which client calls raise. -/
def handleIncoming (fails : CwCall → Bool) (specialist : String × ℚ)
    (resolveApi : Option String) (content : String) (currentLabels : Finset String)
    (forceIaLabel : Bool) (now : Nat) : Dispatch :=
  runSteps fails (dispatchSteps specialist resolveApi content currentLabels forceIaLabel now)

/-- The no-failure oracle: every client call succeeds. -/
def noFail : CwCall → Bool := fun _ => false

/-! ## Answer cache (`RagSystem._cache_answer` / `_get_cached_answer`)

The cache is a Python dict keyed by `(session_id, normalized question)`;  the
list below keeps the dict's insertion order.  `Agente.py` and `Agente2.py`
contain the identical method body. -/

/-- One cache slot: key pair, stored answer, insertion timestamp. -/
structure CacheEntry where
  session : String
  question : String
  answer : String
  ts : Nat
  deriving DecidableEq, Repr

/-- Embedding of the static `_normalize_question`, whose body is that of
`normalize_text`. -/
def normalizeQuestion (q : String) : String :=
  normalizeText q

/-- Key equality of two cache entries (same Python dict key). -/
def CacheEntry.sameKey (e f : CacheEntry) : Prop :=
  e.session = f.session ∧ e.question = f.question

instance : DecidablePred fun p : CacheEntry × CacheEntry => p.1.sameKey p.2 :=
  fun _ => by unfold CacheEntry.sameKey; infer_instance

/-- Python `cache[key] = value`: replace in place when the key exists,
append otherwise. -/
def insertEntry : List CacheEntry → CacheEntry → List CacheEntry
  | [], n => [n]
  | e :: es, n =>
    if e.session = n.session ∧ e.question = n.question then n :: es
    else e :: insertEntry es n

/-- Helper for `min(cache, key=lambda k: cache[k][1])` followed by `pop`:
extract the first entry holding the minimal timestamp, returning it and the
remaining list in order. -/
def extractOldest : CacheEntry → List CacheEntry → CacheEntry × List CacheEntry
  | e, [] => (e, [])
  | e, f :: r =>
    let p := extractOldest f r
    if e.ts ≤ p.1.ts then (e, f :: r) else (p.1, e :: p.2)

/-- Cache after `pop`-ping the oldest entry (Python raises on an empty dict;
that line is reachable only with the pathological capacity 0). -/
def evictOldest : List CacheEntry → List CacheEntry
  | [] => []
  | e :: es => (extractOldest e es).2

/-- Default of the env var `RESPONSE_CACHE_MAX_ITEMS` (256). -/
def RESPONSE_CACHE_MAX_ITEMS : Nat := 256

/-- Embedding of `RagSystem._cache_answer`: empty answers are not cached;  at
or above capacity the oldest entry is evicted;  then the new answer is stored
under `(session, normalized question)` with the current time. -/
def cacheAnswer (maxItems : Nat) (cache : List CacheEntry)
    (session question answer : String) (now : Nat) : List CacheEntry :=
  if answer = "" then cache
  else
    let cache1 := if maxItems ≤ cache.length then evictOldest cache else cache
    insertEntry cache1 ⟨session, normalizeQuestion question, answer, now⟩

/-! ## Deduplication guard (`chatwoot_webhook`, `_processed_message_ids`)

The webhook keeps a dict from message id to first-seen timestamp; before each
membership check it purges entries older than `RESPONSE_CACHE_TTL_SECONDS`. -/

/-- Purge pass: `for old_id, ts in list(d.items()): if (now - ts) > TTL:
d.pop(old_id)`. -/
def purgeOld (ttl now : Nat) (tbl : List (Nat × Nat)) : List (Nat × Nat) :=
  tbl.filter (fun p => !(ttl < now - p.2))

/-- Embedding of the dedup check in `chatwoot_webhook`: purge, then report
whether the id was already seen;  a fresh id is recorded with the current
time, a seen id leaves the table unchanged (and the webhook returns without
dispatching). -/
def dedupSeen (ttl : Nat) (tbl : List (Nat × Nat)) (now : Nat) (id : Nat) :
    Bool × List (Nat × Nat) :=
  let t := purgeOld ttl now tbl
  match assocGet t id with
  | some _ => (true, t)
  | none => (false, t ++ [(id, now)])

/-! ## Team resolution (`ChatwootClient.resolve_team_id`, `ChatwootClient.py`) -/

/-- Fold used by `ChatwootClient._fold_text`: `" ".join(value.strip().lower()
.split())` then diacritic removal — lowercase, collapse whitespace, strip
accents, same normal form as `fold_text`. -/
def cwFoldText (s : String) : String :=
  ⟨(collapseWs ((pyStripList s.data).map toLowerPy)).map stripAccentPy⟩

/-- Python `str.casefold` on the repository's character set (agrees with
lowercasing here). -/
def pyCasefold (s : String) : String :=
  ⟨s.data.map toLowerPy⟩

/-- The `id` field of a team record as Chatwoot may return it: int, string, or
missing/null. -/
inductive TeamIdField where
  | intId (n : Nat)
  | strId (s : String)
  | nullId
  deriving DecidableEq, Repr

/-- One record of the `_list_teams` payload (after `team.get("name") or ""`). -/
structure TeamJson where
  name : String
  tid : TeamIdField
  deriving DecidableEq, Repr

/-- Coercion of the `id` field: ints pass through, digit strings are parsed,
anything else is `None`. -/
def resolveIdField : TeamIdField → Option Nat
  | .intId n => some n
  | .strId s => if pyIsdigit s then some (natOfDigits s.data) else none
  | .nullId => none

/-- Python `a or b` on optional ints: `a` unless it is falsy (`None` or `0`). -/
def pyOrNat (a b : Option Nat) : Option Nat :=
  match a with
  | some v => if v = 0 then b else some v
  | none => b

/-- Result of one `resolve_team_id` call: the returned id, the team cache
afterwards, and how many `_list_teams` network requests were made. -/
structure ResolveOutcome where
  result : Option Nat
  cache : List (String × Nat)
  listCalls : Nat
  deriving DecidableEq, Repr

/-- Loop body of `resolve_team_id` over the fetched team list: skip nameless
or id-less records, cache each team under its casefolded and folded names,
return immediately on an exact folded match, and remember the first partial
(substring either way) match. -/
def scanTeams (queryFolded : String) :
    List TeamJson → List (String × Nat) → Option Nat →
    List (String × Nat) × Option Nat × Option Nat
  | [], cache, best => (cache, none, best)
  | t :: rest, cache, best =>
    let name := pyStrip t.name
    match resolveIdField t.tid with
    | none => scanTeams queryFolded rest cache best
    | some rid =>
      if name = "" then scanTeams queryFolded rest cache best
      else
        let nameFolded := cwFoldText name
        let cache1 := assocUpdate (assocUpdate cache (pyCasefold name) rid) nameFolded rid
        if nameFolded = queryFolded then (cache1, some rid, best)
        else if containsSub queryFolded.data nameFolded.data ||
                containsSub nameFolded.data queryFolded.data then
          scanTeams queryFolded rest cache1 (pyOrNat best (some rid))
        else
          scanTeams queryFolded rest cache1 best

/-- Embedding of `ChatwootClient.resolve_team_id` (`ChatwootClient.py`):
`api` is what `_list_teams` would deliver (`Except.error` models the request
raising, caught by the surrounding `try/except`). -/
def resolveTeamId (cache : List (String × Nat)) (api : Except Unit (List TeamJson))
    (teamNameOrId : Option String) : ResolveOutcome :=
  match teamNameOrId with
  | none => ⟨none, cache, 0⟩
  | some raw =>
    if raw = "" then ⟨none, cache, 0⟩
    else
      let value := pyStrip raw
      if value = "" then ⟨none, cache, 0⟩
      else if pyIsdigit value then ⟨some (natOfDigits value.data), cache, 0⟩
      else
        let folded := pyCasefold value
        match assocGet cache folded with
        | some cached => ⟨some cached, cache, 0⟩
        | none =>
          match api with
          | .error _ => ⟨none, cache, 1⟩
          | .ok teams =>
            let queryFolded := cwFoldText value
            let scan := scanTeams queryFolded teams cache none
            match scan.2.1 with
            | some exact => ⟨some exact, scan.1, 1⟩
            | none =>
              match scan.2.2 with
              | some best => ⟨some best, scan.1, 1⟩
              | none =>
                ⟨pyOrNat (assocGet scan.1 folded) (assocGet scan.1 queryFolded), scan.1, 1⟩

/-! ## Supporting lemmas -/

theorem dropWhile_eq_self_of_forall {p : Char → Bool} {l : List Char}
    (h : ∀ c ∈ l, p c = false) : l.dropWhile p = l := by
  cases l with
  | nil => rfl
  | cons c r => simp [List.dropWhile_cons, h c (List.mem_cons_self c r)]

theorem dropWhile_eq_nil_of_forall {p : Char → Bool} {l : List Char}
    (h : ∀ c ∈ l, p c = true) : l.dropWhile p = [] := by
  induction l with
  | nil => rfl
  | cons c r ih =>
    rw [List.dropWhile_cons, if_pos (by simp [h c (List.mem_cons_self c r)])]
    exact ih fun d hd => h d (List.mem_cons_of_mem c hd)

theorem pyStripList_eq_self {l : List Char} (h : ∀ c ∈ l, isSpacePy c = false) :
    pyStripList l = l := by
  unfold pyStripList
  rw [dropWhile_eq_self_of_forall h,
      dropWhile_eq_self_of_forall (fun c hc => h c (List.mem_reverse.mp hc)),
      List.reverse_reverse]

theorem pyStripList_eq_nil {l : List Char} (h : ∀ c ∈ l, isSpacePy c = true) :
    pyStripList l = [] := by
  unfold pyStripList
  rw [dropWhile_eq_nil_of_forall h]
  rfl

theorem isSpacePy_eq_false_of_isDigit {c : Char} (h : c.isDigit = true) :
    isSpacePy c = false := by
  by_contra hc
  rw [Bool.not_eq_false] at hc
  unfold isSpacePy at hc
  simp only [Bool.or_eq_true, beq_iff_eq] at hc
  rcases hc with ((((h1 | h1) | h1) | h1) | h1) | h1 <;> subst h1 <;>
    exact absurd h (by decide)

theorem data_ne_nil_of_ne_empty {s : String} (h : s ≠ "") : s.data ≠ [] := by
  intro hd
  apply h
  cases s
  simp_all

/-! ## Claim C7 — label composition -/

/-- C7: for every current label set `L` and every target set `T` of managed
labels, the composed label set equals `(L \ managed) ∪ T`; the sorted list
returned by `_compose_state_labels` has exactly those members; every
non-managed label of `L` is preserved, no non-managed label is invented, and
the managed labels present afterwards are exactly `T`. -/
theorem c7_compose_state_labels (L T : Finset String) (hT : T ⊆ managedLabels) :
    composeStateLabels L T = (L \ managedLabels) ∪ T ∧
    (∀ l, l ∈ composeStateLabelsList L T ↔ l ∈ (L \ managedLabels) ∪ T) ∧
    (∀ l ∈ L, l ∉ managedLabels → l ∈ composeStateLabels L T) ∧
    (∀ l ∈ composeStateLabels L T, l ∉ managedLabels → l ∈ L) ∧
    composeStateLabels L T ∩ managedLabels = T := by
  refine ⟨rfl, ?_, ?_, ?_, ?_⟩
  · intro l
    simp [composeStateLabelsList, Finset.mem_sort, composeStateLabels]
  · intro l hl hnm
    simp [composeStateLabels, Finset.mem_union, Finset.mem_sdiff, hl, hnm]
  · intro l hl hnm
    rcases Finset.mem_union.mp hl with h | h
    · exact (Finset.mem_sdiff.mp h).1
    · exact absurd (hT h) hnm
  · ext l
    simp only [Finset.mem_inter, composeStateLabels, Finset.mem_union, Finset.mem_sdiff]
    constructor
    · rintro ⟨h | h, hm⟩
      · exact absurd hm h.2
      · exact h
    · intro h
      exact ⟨Or.inr h, hT h⟩

/-- Witness for C7 at a concrete label state: an externally applied label
survives, the stale managed label `ia_mec` is removed, `humano` is applied. -/
theorem c7_compose_state_labels_witness :
    (({CHATWOOT_LABEL_HUMANO} : Finset String) ⊆ managedLabels) ∧
    (({"vip", "ia_mec"} : Finset String) \ managedLabels ∪ {CHATWOOT_LABEL_HUMANO} =
      composeStateLabels {"vip", "ia_mec"} {CHATWOOT_LABEL_HUMANO}) ∧
    composeStateLabels {"vip", "ia_mec"} {CHATWOOT_LABEL_HUMANO} ∩ managedLabels =
      {CHATWOOT_LABEL_HUMANO} := by
  have h := c7_compose_state_labels {"vip", "ia_mec"} {CHATWOOT_LABEL_HUMANO} (by decide)
  exact ⟨by decide, h.1.symm, h.2.2.2.2⟩

/-! ## Claim C9 — numeric team identifiers round-trip -/

/-- C9: `resolve_team_id` on a string of digits returns that number, makes no
`_list_teams` request (for any `api` behaviour), and leaves the team cache
unchanged. -/
theorem c9_resolve_numeric (cache : List (String × Nat)) (api : Except Unit (List TeamJson))
    (s : String) (hne : s ≠ "") (hdig : ∀ c ∈ s.data, c.isDigit = true) :
    resolveTeamId cache api (some s) = ⟨some (natOfDigits s.data), cache, 0⟩ := by
  have hnospace : ∀ c ∈ s.data, isSpacePy c = false :=
    fun c hc => isSpacePy_eq_false_of_isDigit (hdig c hc)
  have hstrip : pyStrip s = s := by
    unfold pyStrip
    rw [pyStripList_eq_self hnospace]
  have hdigit : pyIsdigit s = true := by
    unfold pyIsdigit
    have h1 : s.data.isEmpty = false := by
      cases hsd : s.data with
      | nil => exact absurd hsd (data_ne_nil_of_ne_empty hne)
      | cons c r => rfl
    simp only [h1, Bool.not_false, Bool.true_and, List.all_eq_true]
    exact hdig
  simp [resolveTeamId, hne, hstrip, hdigit]

/-- Witness for C9: resolving `"42"` against a populated cache and a failing
network yields 42 with zero list calls. -/
theorem c9_resolve_numeric_witness :
    ("42" : String) ≠ "" ∧
    resolveTeamId [("financeiro", 7)] (Except.error ()) (some "42") =
      ⟨some 42, [("financeiro", 7)], 0⟩ := by
  refine ⟨by decide, ?_⟩
  have h := c9_resolve_numeric [("financeiro", 7)] (Except.error ()) "42"
    (by decide) (by decide)
  simpa using h

/-! ## Claim C10 — absent or blank team names -/

/-- C10: with `None` or a whitespace-only team argument, `resolve_team_id`
returns `None`, performs no network request and leaves the cache unchanged. -/
theorem c10_resolve_blank (cache : List (String × Nat)) (api : Except Unit (List TeamJson))
    (s : String) (hsp : ∀ c ∈ s.data, isSpacePy c = true) :
    resolveTeamId cache api none = ⟨none, cache, 0⟩ ∧
    resolveTeamId cache api (some s) = ⟨none, cache, 0⟩ := by
  refine ⟨rfl, ?_⟩
  by_cases h0 : s = ""
  · subst h0
    rfl
  · have hstrip : pyStrip s = "" := by
      unfold pyStrip
      rw [pyStripList_eq_nil hsp]
    simp [resolveTeamId, h0, hstrip]

/-- Witness for C10 on the whitespace string `"  "`. -/
theorem c10_resolve_blank_witness :
    (∀ c ∈ ("  " : String).data, isSpacePy c = true) ∧
    resolveTeamId [("suporte", 1)] (Except.ok []) none = ⟨none, [("suporte", 1)], 0⟩ ∧
    resolveTeamId [("suporte", 1)] (Except.ok []) (some "  ") = ⟨none, [("suporte", 1)], 0⟩ := by
  refine ⟨by decide, ?_, ?_⟩
  · exact (c10_resolve_blank [("suporte", 1)] (Except.ok []) "  " (by decide)).1
  · exact (c10_resolve_blank [("suporte", 1)] (Except.ok []) "  " (by decide)).2

/-! ## Claim C6 — deduplication guard -/

theorem assocGet_eq_none [DecidableEq α] {l : List (α × β)} {id : α}
    (h : ∀ p ∈ l, p.1 ≠ id) : assocGet l id = none := by
  induction l with
  | nil => rfl
  | cons p r ih =>
    rcases p with ⟨k, v⟩
    simp only [assocGet]
    rw [if_neg (h (k, v) (List.mem_cons_self _ _))]
    exact ih fun q hq => h q (List.mem_cons_of_mem _ hq)

theorem assocGet_append_left_none [DecidableEq α] {l m : List (α × β)} {id : α}
    (h : assocGet l id = none) : assocGet (l ++ m) id = assocGet m id := by
  induction l with
  | nil => rfl
  | cons p r ih =>
    rcases p with ⟨k, v⟩
    simp only [assocGet, List.cons_append] at h ⊢
    by_cases hk : k = id
    · rw [if_pos hk] at h
      exact absurd h (by simp)
    · rw [if_neg hk] at h ⊢
      exact ih h

theorem purgeOld_keys {ttl now : Nat} {tbl : List (Nat × Nat)} {id : Nat}
    (h : ∀ p ∈ tbl, p.1 ≠ id) : ∀ p ∈ purgeOld ttl now tbl, p.1 ≠ id :=
  fun p hp => h p (List.mem_filter.mp hp).1

theorem purgeOld_append (ttl now : Nat) (a b : List (Nat × Nat)) :
    purgeOld ttl now (a ++ b) = purgeOld ttl now a ++ purgeOld ttl now b :=
  List.filter_append a b

/-- C6: starting from a table not containing the message id, the first check
reports unseen and records the id; a second check at a time within the TTL
window reports seen; a third check after the TTL has elapsed reports unseen
again, the stale entry having been purged before the check. -/
theorem c6_dedup_idempotence (ttl : Nat) (tbl : List (Nat × Nat)) (id t0 t1 t2 : Nat)
    (hfresh : ∀ p ∈ tbl, p.1 ≠ id) (hwin : t1 - t0 ≤ ttl) (hexp : ttl < t2 - t0) :
    (dedupSeen ttl tbl t0 id).1 = false ∧
    (dedupSeen ttl (dedupSeen ttl tbl t0 id).2 t1 id).1 = true ∧
    (dedupSeen ttl (dedupSeen ttl (dedupSeen ttl tbl t0 id).2 t1 id).2 t2 id).1 = false := by
  have h0 : ∀ p ∈ purgeOld ttl t0 tbl, p.1 ≠ id := purgeOld_keys hfresh
  have e0 : dedupSeen ttl tbl t0 id = (false, purgeOld ttl t0 tbl ++ [(id, t0)]) := by
    simp only [dedupSeen, assocGet_eq_none h0]
  have hkeep1 : purgeOld ttl t1 [(id, t0)] = [(id, t0)] := by
    simp [purgeOld, Nat.not_lt.mpr hwin]
  have h1 : ∀ p ∈ purgeOld ttl t1 (purgeOld ttl t0 tbl), p.1 ≠ id := purgeOld_keys h0
  have e1 : dedupSeen ttl (purgeOld ttl t0 tbl ++ [(id, t0)]) t1 id =
      (true, purgeOld ttl t1 (purgeOld ttl t0 tbl) ++ [(id, t0)]) := by
    simp only [dedupSeen, purgeOld_append, hkeep1,
      assocGet_append_left_none (assocGet_eq_none h1)]
    simp [assocGet]
  have hdrop : purgeOld ttl t2 [(id, t0)] = [] := by
    simp [purgeOld, hexp]
  have h2 : ∀ p ∈ purgeOld ttl t2 (purgeOld ttl t1 (purgeOld ttl t0 tbl)), p.1 ≠ id :=
    purgeOld_keys h1
  have e2 : (dedupSeen ttl (purgeOld ttl t1 (purgeOld ttl t0 tbl) ++ [(id, t0)]) t2 id).1 =
      false := by
    simp only [dedupSeen, purgeOld_append, hdrop, List.append_nil, assocGet_eq_none h2]
  rw [e0]
  refine ⟨rfl, ?_, ?_⟩
  · rw [e1]
  · rw [e1]
    exact e2

/-- Witness for C6: id 7 on an empty table at times 0, 5 and 20 with TTL 10. -/
theorem c6_dedup_idempotence_witness :
    (∀ p ∈ ([] : List (Nat × Nat)), p.1 ≠ 7) ∧ 5 - 0 ≤ 10 ∧ 10 < 20 - 0 ∧
    ((dedupSeen 10 [] 0 7).1 = false ∧
     (dedupSeen 10 (dedupSeen 10 [] 0 7).2 5 7).1 = true ∧
     (dedupSeen 10 (dedupSeen 10 (dedupSeen 10 [] 0 7).2 5 7).2 20 7).1 = false) := by
  exact ⟨by decide, by decide, by decide,
    c6_dedup_idempotence 10 [] 7 0 5 20 (by decide) (by decide) (by decide)⟩

/-! ## Claim C4 — answer-cache capacity -/

theorem insertEntry_length_le (c : List CacheEntry) (n : CacheEntry) :
    (insertEntry c n).length ≤ c.length + 1 := by
  induction c with
  | nil => simp [insertEntry]
  | cons e es ih =>
    unfold insertEntry
    by_cases h : e.session = n.session ∧ e.question = n.question
    · simp [h]
    · simp only [if_neg h, List.length_cons]
      omega

theorem extractOldest_perm (e : CacheEntry) (es : List CacheEntry) :
    List.Perm (e :: es) ((extractOldest e es).1 :: (extractOldest e es).2) := by
  induction es generalizing e with
  | nil => simp [extractOldest]
  | cons f r ih =>
    simp only [extractOldest]
    by_cases h : e.ts ≤ (extractOldest f r).1.ts
    · simp [h]
    · simp only [if_neg h]
      exact ((ih f).cons e).trans (List.Perm.swap (extractOldest f r).1 e (extractOldest f r).2)

theorem extractOldest_min (e : CacheEntry) (es : List CacheEntry) :
    ∀ x ∈ e :: es, (extractOldest e es).1.ts ≤ x.ts := by
  induction es generalizing e with
  | nil =>
    intro x hx
    rcases List.mem_cons.mp hx with rfl | hx'
    · exact le_refl _
    · exact absurd hx' (List.not_mem_nil x)
  | cons f r ih =>
    intro x hx
    simp only [extractOldest]
    by_cases h : e.ts ≤ (extractOldest f r).1.ts
    · simp only [if_pos h]
      rcases List.mem_cons.mp hx with rfl | hx'
      · exact le_refl _
      · exact le_trans h (ih f x hx')
    · simp only [if_neg h]
      rcases List.mem_cons.mp hx with rfl | hx'
      · omega
      · exact ih f x hx'

theorem extractOldest_mem (e : CacheEntry) (es : List CacheEntry) :
    (extractOldest e es).1 ∈ e :: es :=
  (extractOldest_perm e es).mem_iff.mpr (List.mem_cons_self _ _)

/-- C4: when the cache is within its capacity (and the capacity is at least
one, as configured), storing an answer keeps it within capacity; when the
store happens exactly at capacity with a non-empty answer, the result is the
insertion after evicting exactly one entry, and that entry carries the oldest
insertion timestamp. -/
theorem c4_cache_capacity (maxItems : Nat) (cache : List CacheEntry)
    (session question answer : String) (now : Nat)
    (hcap : 0 < maxItems) (hlen : cache.length ≤ maxItems) :
    (cacheAnswer maxItems cache session question answer now).length ≤ maxItems ∧
    (cache.length = maxItems → answer ≠ "" →
      cacheAnswer maxItems cache session question answer now =
        insertEntry (evictOldest cache) ⟨session, normalizeQuestion question, answer, now⟩ ∧
      ∃ ev ∈ cache, (∀ e ∈ cache, ev.ts ≤ e.ts) ∧
        List.Perm cache (ev :: evictOldest cache)) := by
  constructor
  · by_cases ha : answer = ""
    · simpa [cacheAnswer, ha] using hlen
    · simp only [cacheAnswer, if_neg ha]
      by_cases hfull : maxItems ≤ cache.length
      · simp only [if_pos hfull]
        have hEq : cache.length = maxItems := le_antisymm hlen hfull
        cases cache with
        | nil =>
          simp only [List.length_nil] at hEq
          omega
        | cons e es =>
          have hper := (extractOldest_perm e es).length_eq
          have hins := insertEntry_length_le (evictOldest (e :: es))
            ⟨session, normalizeQuestion question, answer, now⟩
          simp only [evictOldest] at hins ⊢
          simp only [List.length_cons] at hper hEq
          omega
      · simp only [if_neg hfull]
        have hins := insertEntry_length_le cache
          ⟨session, normalizeQuestion question, answer, now⟩
        omega
  · intro hEq ha
    have hfull : maxItems ≤ cache.length := le_of_eq hEq.symm
    refine ⟨by simp [cacheAnswer, ha, hfull], ?_⟩
    cases cache with
    | nil =>
      simp only [List.length_nil] at hEq
      omega
    | cons e es =>
      refine ⟨(extractOldest e es).1, extractOldest_mem e es, extractOldest_min e es, ?_⟩
      simpa [evictOldest] using extractOldest_perm e es

/-- Witness for C4: a two-slot cache at capacity receives a third answer; the
entry with timestamp 3 is the oldest. -/
theorem c4_cache_capacity_witness :
    0 < 2 ∧ ([⟨"s", "a", "x", 5⟩, ⟨"s", "b", "y", 3⟩] : List CacheEntry).length ≤ 2 ∧
    ((cacheAnswer 2 [⟨"s", "a", "x", 5⟩, ⟨"s", "b", "y", 3⟩] "s" "c" "z" 9).length ≤ 2 ∧
     (([⟨"s", "a", "x", 5⟩, ⟨"s", "b", "y", 3⟩] : List CacheEntry).length = 2 → "z" ≠ "" →
       cacheAnswer 2 [⟨"s", "a", "x", 5⟩, ⟨"s", "b", "y", 3⟩] "s" "c" "z" 9 =
         insertEntry (evictOldest [⟨"s", "a", "x", 5⟩, ⟨"s", "b", "y", 3⟩])
           ⟨"s", normalizeQuestion "c", "z", 9⟩ ∧
       ∃ ev ∈ ([⟨"s", "a", "x", 5⟩, ⟨"s", "b", "y", 3⟩] : List CacheEntry),
         (∀ e ∈ ([⟨"s", "a", "x", 5⟩, ⟨"s", "b", "y", 3⟩] : List CacheEntry), ev.ts ≤ e.ts) ∧
         List.Perm [⟨"s", "a", "x", 5⟩, ⟨"s", "b", "y", 3⟩]
           (ev :: evictOldest [⟨"s", "a", "x", 5⟩, ⟨"s", "b", "y", 3⟩]))) :=
  ⟨by decide, by decide,
    c4_cache_capacity 2 [⟨"s", "a", "x", 5⟩, ⟨"s", "b", "y", 3⟩] "s" "c" "z" 9
      (by decide) (by decide)⟩

/-! ## Claim C3 — side-effect failure isolation -/

theorem runSteps_all_protected (fails : CwCall → Bool) (steps : List (CwCall × Bool))
    (h : (steps.all fun s => s.2) = true) :
    runSteps fails steps = ⟨steps.map Prod.fst, false⟩ := by
  induction steps with
  | nil => rfl
  | cons s rest ih =>
    rcases s with ⟨c, prot⟩
    simp only [List.all_cons, Bool.and_eq_true] at h
    obtain ⟨hp, hrest⟩ := h
    subst hp
    simp [runSteps, ih hrest]

theorem humanRouteSteps_all_protected (d : IntentDecision) (L : Finset String)
    (attrs : String → ℚ → CustomAttrs) (r : Option String) :
    ((humanRouteSteps d L attrs r).all fun s => s.2) = true := by
  unfold humanRouteSteps
  rcases r with _ | t <;> by_cases h : d.reason = "explicit_human_request" <;> simp [h]

/-- C3 (amended): on the `human` route every side-effect call is individually
protected by `try/except`, so the dispatch never aborts and the issued call
sequence is the same as under a failure-free run, whatever calls fail. -/
theorem c3_human_route_isolation (fails : CwCall → Bool) (specialist : String × ℚ)
    (resolveApi : Option String) (content : String) (L : Finset String)
    (force : Bool) (now : Nat)
    (hroute : (classifyIntent content L).route = Route.human) :
    (handleIncoming fails specialist resolveApi content L force now).aborted = false ∧
    (handleIncoming fails specialist resolveApi content L force now).issued =
      (handleIncoming noFail specialist resolveApi content L force now).issued := by
  simp only [handleIncoming, dispatchSteps, hroute]
  rw [runSteps_all_protected fails _ (humanRouteSteps_all_protected _ _ _ _),
      runSteps_all_protected noFail _ (humanRouteSteps_all_protected _ _ _ _)]
  exact ⟨rfl, rfl⟩

/-- Oracle failing exactly the message-send calls. -/
def failSendOracle : CwCall → Bool
  | .sendMessage _ => true
  | _ => false

/-- Witness for C3 on an explicit human request with a failing send. -/
theorem c3_human_route_isolation_witness :
    (classifyIntent "quero falar com o suporte" ∅).route = Route.human ∧
    ((handleIncoming failSendOracle ("x", 8/10) (some "1")
        "quero falar com o suporte" ∅ false 0).aborted = false ∧
     (handleIncoming failSendOracle ("x", 8/10) (some "1")
        "quero falar com o suporte" ∅ false 0).issued =
       (handleIncoming noFail ("x", 8/10) (some "1")
        "quero falar com o suporte" ∅ false 0).issued) :=
  ⟨by decide,
    c3_human_route_isolation failSendOracle ("x", 8/10) (some "1")
      "quero falar com o suporte" ∅ false 0 (by decide)⟩

/-- C3 counterexample: on the `direct` route ("oi" is smalltalk) the calls are
not individually protected, so a failing send aborts the dispatch and the
label update, attribute update and reopen are never issued — refuting the
claim for routes other than `human`. -/
theorem c3_direct_route_counterexample :
    (classifyIntent "oi" ∅).route = Route.direct ∧
    (handleIncoming failSendOracle ("x", 8/10) none "oi" ∅ false 0).aborted = true ∧
    (handleIncoming failSendOracle ("x", 8/10) none "oi" ∅ false 0).issued =
      [CwCall.sendMessage (directAnswer "oi")] ∧
    CwCall.setOpen ∉ (handleIncoming failSendOracle ("x", 8/10) none "oi" ∅ false 0).issued := by
  refine ⟨by decide, by decide, by decide, by decide⟩

/-! ## Claim C5 — confidence-gated MEC dispatch -/

/-- C5: on the `mec` route with a failure-free network, a below-threshold
confidence sends the apology, applies labels `{humano, ia_falha}`, records
`handled_by = human_team_after_low_confidence` with the resolved team id, and
reopens; an at-or-above-threshold confidence sends the specialist answer,
applies labels `{ia_mec}`, records `handled_by = agent_2_mec` clearing the
assignee, and reopens. -/
theorem c5_mec_confidence_escalation (ans : String) (conf : ℚ) (resolveApi : Option String)
    (content : String) (L : Finset String) (force : Bool) (now : Nat)
    (hroute : (classifyIntent content L).route = Route.mec) :
    (conf < ORCHESTRATOR_CONFIDENCE_THRESHOLD →
      handleIncoming noFail (ans, conf) resolveApi content L force now =
        ⟨[CwCall.sendMessage lowConfidenceMessage,
          CwCall.setLabels (composeStateLabelsList L {CHATWOOT_LABEL_HUMANO, CHATWOOT_LABEL_IA_FALHA}),
          CwCall.updateMeta ⟨"mec", (classifyIntent content L).reason, now, force,
            "human_team_after_low_confidence", conf⟩ resolveApi false,
          CwCall.setOpen], false⟩) ∧
    (ORCHESTRATOR_CONFIDENCE_THRESHOLD ≤ conf →
      handleIncoming noFail (ans, conf) resolveApi content L force now =
        ⟨[CwCall.sendMessage ans,
          CwCall.setLabels (composeStateLabelsList L {CHATWOOT_LABEL_IA_MEC}),
          CwCall.updateMeta ⟨"mec", (classifyIntent content L).reason, now, force,
            "agent_2_mec", conf⟩ none true,
          CwCall.setOpen], false⟩) := by
  constructor
  · intro hlt
    rcases resolveApi with _ | t <;>
      simp [handleIncoming, dispatchSteps, hroute, Route.toStr, mecRouteSteps,
        CHATWOOT_HUMAN_TEAM_ID, runSteps, noFail, not_le.mpr hlt]
  · intro hge
    rcases resolveApi with _ | t <;>
      simp [handleIncoming, dispatchSteps, hroute, Route.toStr, mecRouteSteps,
        CHATWOOT_HUMAN_TEAM_ID, runSteps, noFail, hge]

/-- Witness for C5: the keyword message "mec" dispatched at confidence 3/10
and at confidence 9/10 against threshold 7/10. -/
theorem c5_mec_confidence_escalation_witness :
    (classifyIntent "mec" ∅).route = Route.mec ∧
    (((3 : ℚ)/10 < ORCHESTRATOR_CONFIDENCE_THRESHOLD →
      handleIncoming noFail ("resp", 3/10) (some "9") "mec" ∅ false 5 =
        ⟨[CwCall.sendMessage lowConfidenceMessage,
          CwCall.setLabels (composeStateLabelsList ∅ {CHATWOOT_LABEL_HUMANO, CHATWOOT_LABEL_IA_FALHA}),
          CwCall.updateMeta ⟨"mec", (classifyIntent "mec" ∅).reason, 5, false,
            "human_team_after_low_confidence", 3/10⟩ (some "9") false,
          CwCall.setOpen], false⟩) ∧
     (ORCHESTRATOR_CONFIDENCE_THRESHOLD ≤ (3 : ℚ)/10 →
      handleIncoming noFail ("resp", 3/10) (some "9") "mec" ∅ false 5 =
        ⟨[CwCall.sendMessage "resp",
          CwCall.setLabels (composeStateLabelsList ∅ {CHATWOOT_LABEL_IA_MEC}),
          CwCall.updateMeta ⟨"mec", (classifyIntent "mec" ∅).reason, 5, false,
            "agent_2_mec", 3/10⟩ none true,
          CwCall.setOpen], false⟩)) :=
  ⟨by decide, c5_mec_confidence_escalation "resp" (3/10) (some "9") "mec" ∅ false 5 (by decide)⟩

/-! ## Claim C1 — explicit human requests and case invariance -/

theorem assocGet_mem [DecidableEq α] {l : List (α × β)} {k : α} {v : β}
    (h : assocGet l k = some v) : (k, v) ∈ l := by
  induction l with
  | nil => simp [assocGet] at h
  | cons p r ih =>
    rcases p with ⟨k', v'⟩
    simp only [assocGet] at h
    by_cases hk : k' = k
    · rw [if_pos hk] at h
      subst hk
      injection h with h
      subst h
      exact List.mem_cons_self _ _
    · rw [if_neg hk] at h
      exact List.mem_cons_of_mem _ (ih h)

theorem isSpacePy_toLowerPy (c : Char) : isSpacePy (toLowerPy c) = isSpacePy c := by
  unfold toLowerPy
  cases h : assocGet lowerTable c with
  | none => rfl
  | some d =>
    have hall : ∀ p ∈ lowerTable, isSpacePy p.2 = isSpacePy p.1 := by decide
    exact hall (c, d) (assocGet_mem h)

theorem dropWhile_space_map_lower {l1 l2 : List Char}
    (h : l1.map toLowerPy = l2.map toLowerPy) :
    (l1.dropWhile isSpacePy).map toLowerPy = (l2.dropWhile isSpacePy).map toLowerPy := by
  induction l1 generalizing l2 with
  | nil =>
    cases l2 with
    | nil => rfl
    | cons b t => simp at h
  | cons a s ih =>
    cases l2 with
    | nil => simp at h
    | cons b t =>
      simp only [List.map_cons, List.cons.injEq] at h
      obtain ⟨hab, hst⟩ := h
      have hsp : isSpacePy a = isSpacePy b := by
        rw [← isSpacePy_toLowerPy a, ← isSpacePy_toLowerPy b, hab]
      by_cases ha : isSpacePy a = true
      · rw [List.dropWhile_cons, List.dropWhile_cons, if_pos ha, if_pos (hsp ▸ ha)]
        exact ih hst
      · have hb : ¬(isSpacePy b = true) := by
          rw [← hsp]
          exact ha
        rw [List.dropWhile_cons, List.dropWhile_cons, if_neg ha, if_neg hb]
        simp [hab, hst]

theorem strip_map_lower {l1 l2 : List Char}
    (h : l1.map toLowerPy = l2.map toLowerPy) :
    (pyStripList l1).map toLowerPy = (pyStripList l2).map toLowerPy := by
  unfold pyStripList
  have h1 := dropWhile_space_map_lower h
  have h2 : (l1.dropWhile isSpacePy).reverse.map toLowerPy =
      (l2.dropWhile isSpacePy).reverse.map toLowerPy := by
    rw [List.map_reverse, List.map_reverse, h1]
  have h3 := dropWhile_space_map_lower h2
  rw [List.map_reverse, List.map_reverse, h3]

theorem normalizeText_case_invariant {s t : String}
    (h : s.data.map toLowerPy = t.data.map toLowerPy) :
    normalizeText s = normalizeText t := by
  unfold normalizeText normalizeTextList
  rw [strip_map_lower h]

/-- C1 (amended): whenever `_requested_human` accepts the normalized message
(a pattern match, or an action plus a target keyword after folding),
`classify_intent` answers route `human` with reason `explicit_human_request`
for every label set; and the whole decision is invariant under changes of
letter case.  (Invariance under accent changes does not hold: see the
accent counterexample.) -/
theorem c1_explicit_human_case_invariance (message m2 : String) (L : Finset String)
    (hreq : requestedHuman (normalizeText message) = true)
    (hcase : message.data.map toLowerPy = m2.data.map toLowerPy) :
    classifyIntent message L =
      ⟨Route.human, "explicit_human_request", true,
        requestedAi (normalizeText message), none⟩ ∧
    classifyIntent m2 L = classifyIntent message L := by
  have hnorm : normalizeText message = normalizeText m2 :=
    normalizeText_case_invariant hcase
  constructor
  · simp [classifyIntent, classifyIntentText, hreq]
  · unfold classifyIntent
    rw [hnorm]

/-- Witness for C1: "Quero falar com o SUPORTE" and its lowercase form get
the identical `human` decision. -/
theorem c1_explicit_human_case_invariance_witness :
    requestedHuman (normalizeText "Quero falar com o SUPORTE") = true ∧
    "Quero falar com o SUPORTE".data.map toLowerPy =
      "quero falar com o suporte".data.map toLowerPy ∧
    (classifyIntent "Quero falar com o SUPORTE" ∅ =
      ⟨Route.human, "explicit_human_request", true,
        requestedAi (normalizeText "Quero falar com o SUPORTE"), none⟩ ∧
     classifyIntent "quero falar com o suporte" ∅ =
       classifyIntent "Quero falar com o SUPORTE" ∅) :=
  ⟨by decide, by decide,
    c1_explicit_human_case_invariance "Quero falar com o SUPORTE"
      "quero falar com o suporte" ∅ (by decide) (by decide)⟩

/-- C1 counterexample (accent part): "financeiro" matches the explicit-human
pattern `\bfinanceir\w*\b` and is routed to a human, but its accent variant
"financéiro" (identical after diacritic folding) matches no pattern — the
regexes run on the lowercased but still accented text — and no action keyword
occurs, so it falls through to the default `mec` route: the decision is not
invariant under accents. -/
theorem c1_accent_variant_counterexample :
    requestedHuman (normalizeText "financeiro") = true ∧
    "financeiro".data.map stripAccentPy = "financéiro".data.map stripAccentPy ∧
    classifyIntent "financeiro" ∅ =
      ⟨Route.human, "explicit_human_request", true, false, none⟩ ∧
    classifyIntent "financéiro" ∅ =
      ⟨Route.mec, "default_mec_route", false, false, none⟩ ∧
    classifyIntent "financéiro" ∅ ≠ classifyIntent "financeiro" ∅ :=
  ⟨by decide, by decide, by decide, by decide, by decide⟩

/-! ## Claim C2 — the human/failure lock -/

/-- C2 (amended): when the label set carries both `humano` and `ia_falha` and
the message has no explicit AI signal, the route is `human`; the reason is
`conversation_already_human` whenever the message also carries no explicit
human-request signal (an explicit request is matched first and yields
`explicit_human_request` instead); and without the failure label the
`conversation_already_human` reason is never produced. -/
theorem c2_human_failure_lock (msg : String) (L : Finset String)
    (hH : CHATWOOT_LABEL_HUMANO ∈ L) (hF : CHATWOOT_LABEL_IA_FALHA ∈ L)
    (hAi : requestedAi (normalizeText msg) = false) :
    (classifyIntent msg L).route = Route.human ∧
    (requestedHuman (normalizeText msg) = false →
      classifyIntent msg L =
        ⟨Route.human, "conversation_already_human", false, false, none⟩) ∧
    (∀ M : Finset String, CHATWOOT_LABEL_IA_FALHA ∉ M →
      (classifyIntent msg M).reason ≠ "conversation_already_human") := by
  refine ⟨?_, ?_, ?_⟩
  · by_cases hrh : requestedHuman (normalizeText msg) = true
    · simp [classifyIntent, classifyIntentText, hrh]
    · rw [Bool.not_eq_true] at hrh
      simp [classifyIntent, classifyIntentText, hrh, hH, hF, hAi]
  · intro hrh
    simp [classifyIntent, classifyIntentText, hrh, hH, hF, hAi]
  · intro M hM
    by_cases hrh : requestedHuman (normalizeText msg) = true
    · simp [classifyIntent, classifyIntentText, hrh]
    · rw [Bool.not_eq_true] at hrh
      simp only [classifyIntent, classifyIntentText, hrh, Bool.false_eq_true, if_false]
      rw [if_neg (fun hcon => hM hcon.2.1)]
      split
      · decide
      · split
        · decide
        · split
          · decide
          · decide

/-- Witness for C2: smalltalk under the {humano, ia_falha} lock stays human via
`conversation_already_human`. -/
theorem c2_human_failure_lock_witness :
    CHATWOOT_LABEL_HUMANO ∈ ({"humano", "ia_falha"} : Finset String) ∧
    CHATWOOT_LABEL_IA_FALHA ∈ ({"humano", "ia_falha"} : Finset String) ∧
    requestedAi (normalizeText "bom dia") = false ∧
    ((classifyIntent "bom dia" {"humano", "ia_falha"}).route = Route.human ∧
     (requestedHuman (normalizeText "bom dia") = false →
       classifyIntent "bom dia" {"humano", "ia_falha"} =
         ⟨Route.human, "conversation_already_human", false, false, none⟩) ∧
     (∀ M : Finset String, CHATWOOT_LABEL_IA_FALHA ∉ M →
       (classifyIntent "bom dia" M).reason ≠ "conversation_already_human")) :=
  ⟨by decide, by decide, by decide,
    c2_human_failure_lock "bom dia" {"humano", "ia_falha"}
      (by decide) (by decide) (by decide)⟩

/-- C2 counterexample: under the very lock ({humano, ia_falha}, no AI signal)
an explicit human request is classified with reason `explicit_human_request`,
so the claimed reason `conversation_already_human` does not hold "for any
message content". -/
theorem c2_lock_reason_counterexample :
    requestedAi (normalizeText "quero falar com o suporte") = false ∧
    (classifyIntent "quero falar com o suporte" {"humano", "ia_falha"}).reason =
      "explicit_human_request" ∧
    (classifyIntent "quero falar com o suporte" {"humano", "ia_falha"}).reason ≠
      "conversation_already_human" :=
  ⟨by decide, by decide, by decide⟩

/-! ## Claim C8 — the "Bom dia!" scenario -/

/-- C8: evaluation at the failing input.  `normalize_text` keeps the
exclamation mark, so "Bom dia!" misses the exact-match smalltalk vocabulary
and is routed `mec` / `default_mec_route` — not the claimed `direct` /
`smalltalk`.  Without the punctuation the claimed behaviour appears: route
`direct`, the greeting-specific canned reply is sent, and the labels are
composed from the orchestrator label alone. -/
theorem c8_bom_dia_eval :
    normalizeText "Bom dia!" = "bom dia!" ∧
    classifyIntent "Bom dia!" ∅ =
      ⟨Route.mec, "default_mec_route", false, false, none⟩ ∧
    (classifyIntent "Bom dia!" ∅).route ≠ Route.direct ∧
    classifyIntent "Bom dia" ∅ = ⟨Route.direct, "smalltalk", false, false, none⟩ ∧
    composeStateLabels ∅ {CHATWOOT_LABEL_IA_ORQUESTRADOR} =
      {CHATWOOT_LABEL_IA_ORQUESTRADOR} ∧
    handleIncoming noFail ("resp", 8/10) none "Bom dia" ∅ false 0 =
      ⟨[CwCall.sendMessage
          "Olá! Posso ajudar com dúvidas acadêmicas e regulatórias. Qual sua pergunta?",
        CwCall.setLabels (composeStateLabelsList ∅ {CHATWOOT_LABEL_IA_ORQUESTRADOR}),
        CwCall.updateMeta ⟨"direct", "smalltalk", 0, false, "agent_1_orchestrator", 95/100⟩
          none true,
        CwCall.setOpen], false⟩ := by
  refine ⟨by decide, by decide, by decide, by decide, by decide, ?_⟩
  have hd : classifyIntent "Bom dia" ∅ = ⟨Route.direct, "smalltalk", false, false, none⟩ := by
    decide
  have ha : directAnswer "Bom dia" =
      "Olá! Posso ajudar com dúvidas acadêmicas e regulatórias. Qual sua pergunta?" := by
    decide
  simp [handleIncoming, dispatchSteps, hd, Route.toStr, directRouteSteps, ha, runSteps,
    noFail, CHATWOOT_HUMAN_TEAM_ID]
